import Mathlib

/-!
Verification of the miner split-execution core of this go-ethereum fork.

The Go sources modelled here are miner/client.go (the attested remote round
trip and the pre/post state reconciliation) and miner/worker.go (the
transaction commit loop).  External collaborators — encoding/json,
core.ApplyTransaction, the StateDB snapshot machinery, the ego attestation
library, and the transaction orderer (newTransactionsByPriceAndNonce), none
of which are part of the provided sources — enter the model as explicit
oracle parameters or are modelled from the specification, as marked on each
definition.
-/

namespace Miner

/-- Account addresses (common.Address), modelled as naturals. -/
abbrev Addr := Nat

/-- Storage keys and values (common.Hash), modelled as naturals. -/
abbrev Hash := Nat

/-- Mirror of the account struct of miner/client.go (lines 49-54): one JSON
pre/post snapshot record.  Balance is a pointer to a big integer (a nil
pointer is encoded as none), Code is a byte slice that may be nil, Nonce is
a uint64, Storage a hash-to-hash map read pointwise. -/
structure Account where
  balance : Option Int
  code : Option (List Nat)
  nonce : Nat
  storage : Hash → Option Hash

/-- Mirror of stateMap (miner/client.go line 28): address to account pointer,
with an absent key encoded as none. -/
abbrev StateMap := Addr → Option Account

/-- Modelled from the spec: one record of the AccountState Store backing
(core/state.StateDB is outside the provided sources).  Reads of absent
accounts yield the zero record, storage reads default to the zero hash. -/
structure StoredAccount where
  balance : Int
  nonce : Nat
  code : List Nat
  storage : Hash → Hash

/-- Modelled from the spec: the AccountState Store, read pointwise. -/
abbrev Store := Addr → StoredAccount

/-- Go bytes.Equal on possibly nil slices: a nil slice is equal to the empty
slice, otherwise contents are compared. -/
def bytesEqual (a b : Option (List Nat)) : Bool :=
  a.getD [] == b.getD []

/-- Truncation performed by uint256.FromBig inside updateState: the big
integer is reduced modulo 2^256 (negative inputs wrap the same way); the
overflow flag is discarded by the Go code. -/
def toU256 (z : Int) : Int :=
  z % ((2 : Int) ^ 256)

/-- Mirror of comparePrePostStates (miner/client.go lines 250-309), written
pointwise per address: the entry produced for an address depends only on the
pre and post entries at that address, so the Go map iteration order is
irrelevant.  In the both-present branch the Go code initialises the update
entry with a non-nil pointer to a zero big.Int (line 259), so an unchanged
balance is recorded as the value zero rather than as absent; an unchanged
nonce stays zero and an unchanged code stays nil.  The balance comparison
mirrors big.Int.Cmp on the two (dereferenced) balance pointers; the Go code
would dereference nil there, so only inputs with present balances are
meaningful in that branch. -/
def comparePrePostStates (pre post : StateMap) : Addr → Option Account :=
  fun addr =>
    match post addr, pre addr with
    | some postAcc, none => some postAcc
    | some postAcc, some preAcc =>
        some {
          balance := if postAcc.balance = preAcc.balance then some 0 else postAcc.balance
          nonce := if postAcc.nonce = preAcc.nonce then 0 else postAcc.nonce
          code := if bytesEqual postAcc.code preAcc.code then none else postAcc.code
          storage := fun key =>
            match postAcc.storage key, preAcc.storage key with
            | some v, none => some v
            | some v, some pv => if v = pv then none else some v
            | none, _ => none }
    | none, some _ =>
        some { balance := some 0, nonce := 0, code := none, storage := fun _ => none }
    | none, none => none

/-- Mirror of the per-account body of updateState (miner/client.go
lines 312-326): a nil balance pointer is skipped, a zero nonce is skipped, a
nil code slice is skipped, and each storage entry of the diff overrides the
stored value.  Field writes happen in the source order (balance, nonce,
code, storage). -/
def applyAccountDiff (acc : Account) (a0 : StoredAccount) : StoredAccount :=
  let a1 := match acc.balance with
    | some b => { a0 with balance := toU256 b }
    | none => a0
  let a2 := if acc.nonce ≠ 0 then { a1 with nonce := acc.nonce } else a1
  let a3 := match acc.code with
    | some c => { a2 with code := c }
    | none => a2
  { a3 with storage := fun key =>
      match acc.storage key with
      | some v => v
      | none => a3.storage key }

/-- Mirror of updateState (miner/client.go lines 311-328): the sparse patch
of the store, applied independently per address. -/
def updateState (updates : Addr → Option Account) (st : Store) : Store :=
  fun addr =>
    match updates addr with
    | none => st addr
    | some acc => applyAccountDiff acc (st addr)

/-- Receipt fields used by the client path (types.Receipt is outside the
provided sources): GasUsed is a uint64. -/
structure RReceipt where
  gasUsed : Nat
deriving DecidableEq

/-- Mirror of stateModification (miner/client.go lines 57-62).  Tx is an
opaque transaction pointer (nil encoded as none); Receipt may be nil. -/
structure StateModification where
  pre : StateMap
  post : StateMap
  tx : Option Nat
  receipt : Option RReceipt

/-- Zero value a failed json.Unmarshal leaves in a stateModification record:
nil maps and nil pointers. -/
def zeroStateModification : StateModification :=
  { pre := fun _ => none, post := fun _ => none, tx := none, receipt := none }

/-- Client-side view of the sealing Environment as used by tlsCallToServer:
the header gas fields plus the accumulated transaction list, receipt list,
transaction count and ledger state. -/
structure CEnv where
  store : Store
  gasUsed : Nat
  gasLimit : Nat
  txs : List (Option Nat)
  tcount : Nat
  receipts : List RReceipt

/-- Modulus of uint64 arithmetic. -/
def U64 : Nat := 2 ^ 64

/-- Mirror of the per-record admission step of tlsCallToServer
(miner/client.go lines 224-244).  A nil receipt is only logged and the
record skipped.  Header.GasUsed is a uint64, so the accumulation wraps
modulo 2^64; when the limit check rejects, the Go code subtracts the gas
back, which restores the previous uint64 value exactly, so a rejected
record leaves the environment unchanged. -/
def processRecord (env : CEnv) (sm : StateModification) : CEnv :=
  match sm.receipt with
  | none => env
  | some r =>
      let g := (env.gasUsed + r.gasUsed) % U64
      if env.gasLimit < g then env
      else
        { env with
          gasUsed := g
          txs := env.txs ++ [sm.tx]
          tcount := env.tcount + 1
          receipts := env.receipts ++ [r]
          store := updateState (comparePrePostStates sm.pre sm.post) env.store }

/-- Mirror of the record loop of tlsCallToServer (miner/client.go
lines 224-244): the records of the batch are processed in order. -/
def processBatch (env : CEnv) (sms : List StateModification) : CEnv :=
  sms.foldl processRecord env

/-- Network actions tlsCallToServer performs, in order (miner/client.go
lines 125-196): a GET of the /cert endpoint, then the POST that carries the
JSON-encoded transaction batch.  verifyAttestation stands for a call of
verifyReport guarding the channel; the body of tlsCallToServer contains no
such call (both TLS configs it builds set InsecureSkipVerify). -/
inductive NetEvent
  | fetchCert
  | verifyAttestation
  | postTxData
deriving DecidableEq

/-- Mirror of tlsCallToServer (miner/client.go lines 125-248) on the path
where every network operation succeeds.  JSON decoding (encoding/json,
external) is passed in as its parsed outcome: the outer none stands for a
response body that fails to decode (the Go code logs the error and keeps the
zero clientResponse, hence no records); an inner none stands for one result
record that fails to decode (the Go code logs the error and appends the zero
stateModification).  The first component lists the network actions in order;
the third is the error returned to the caller, which this path never
produces: the function ends with return respBody, nil. -/
def tlsCallToServer (parsed : Option (List (Option StateModification))) (env : CEnv) :
    List NetEvent × CEnv × Option Unit :=
  let events := [NetEvent.fetchCert, NetEvent.postTxData]
  let stateModifications :=
    match parsed with
    | none => []
    | some rs => rs.map (fun r => r.getD zeroStateModification)
  (events, processBatch env stateModifications, none)

/-- Outcome of eclient.VerifyRemoteReport (external attestation library):
success, the ErrTCBLevelInvalid warning, or any other failure. -/
inductive AttOutcome
  | ok
  | tcbLevelInvalid
  | failed
deriving DecidableEq

/-- Fields of an attestation.Report consumed by verifyReport. -/
structure AttReport where
  data : List Nat
  securityVersion : Nat
  productID : List Nat
  signerID : List Nat
deriving DecidableEq

/-- Errors verifyReport can return (miner/client.go lines 64-93). -/
inductive AttError
  | remoteReportInvalid
  | reportDataMismatch
  | invalidSecurityVersion
  | invalidProduct
  | invalidSigner
deriving DecidableEq

/-- Go binary.LittleEndian.Uint16 of the first two bytes. -/
def leUint16 (bs : List Nat) : Nat :=
  bs.getD 0 0 + 256 * bs.getD 1 0

/-- Mirror of verifyReport (miner/client.go lines 64-93).  The call of
eclient.VerifyRemoteReport is passed in as outcome together with the report
it yields; certHash stands for sha256(certBytes) (external hash, 32 bytes).
An ErrTCBLevelInvalid outcome is only logged and then ignored.  The checks
follow the source order: report data against the certificate hash, then
SecurityVersion at least 2, then ProductID equal to 1234, then SignerID
equal to the expected signer. -/
def verifyReport (outcome : AttOutcome) (report : AttReport)
    (certHash : List Nat) (signer : List Nat) : Option AttError :=
  match outcome with
  | .failed => some .remoteReportInvalid
  | _ =>
      if ¬ (report.data.take certHash.length = certHash) then some .reportDataMismatch
      else if report.securityVersion < 2 then some .invalidSecurityVersion
      else if leUint16 report.productID ≠ 1234 then some .invalidProduct
      else if report.signerID ≠ signer then some .invalidSigner
      else none

/-! Worker side: the commit loop of miner/worker.go. -/

/-- Constant params.TxGas of the external params package. -/
def TxGas : Nat := 21000

/-- Constant params.BlobTxBlobGasPerBlob (1 <<< 17) of the external params
package. -/
def BlobTxBlobGasPerBlob : Nat := 131072

/-- Constant params.MaxBlobGasPerBlock (six blobs) of the external params
package. -/
def MaxBlobGasPerBlock : Nat := 786432

/-- Mirror of the commitInterrupt constants (miner/worker.go lines 64-69):
the cancellation signal values. -/
inductive CommitInterrupt
  | none
  | newHead
  | resubmit
  | timeout
deriving DecidableEq

/-- Mirror of the three interruption errors (miner/worker.go lines 42-46). -/
inductive BuildErr
  | blockInterruptedByNewHead
  | blockInterruptedByRecommit
  | blockInterruptedByTimeout
deriving DecidableEq

/-- Mirror of signalToErr (miner/worker.go lines 512-523).  The Go function
panics on the none signal; the loop never calls it with none, and the model
returns Option.none there. -/
def signalToErr : CommitInterrupt → Option BuildErr
  | CommitInterrupt.newHead => some BuildErr.blockInterruptedByNewHead
  | CommitInterrupt.resubmit => some BuildErr.blockInterruptedByRecommit
  | CommitInterrupt.timeout => some BuildErr.blockInterruptedByTimeout
  | CommitInterrupt.none => none

/-- Candidate transaction as the commit loop sees it: the cached
txpool.LazyTransaction fields (gas, blobGas, fee caps) together with the
fields of the resolved transaction the loop consults.  evicted mirrors
Resolve() returning nil; blobCount mirrors len(sidecar.Blobs) of a blob
transaction. -/
structure WTx where
  sender : Nat
  nonce : Nat
  gas : Nat
  blobGas : Nat
  isBlob : Bool
  blobCount : Nat
  gasFeeCap : Nat
  gasTipCap : Nat
  isProtected : Bool
  evicted : Bool
deriving DecidableEq

/-- Receipt fields the worker path consumes (types.Receipt is external). -/
structure WReceipt where
  gasUsed : Nat
  blobGasUsed : Nat
deriving DecidableEq

/-- Mirror of the Environment fields the commit loop mutates
(miner/worker.go lines 50-62): the state, the gas pool, the header gas and
blob-gas counters, and the accumulated transactions, receipts and sidecars.
sidecars records the blob count of each accepted sidecar. -/
structure WEnv where
  state : Store
  tcount : Nat
  gasPool : Nat
  gasUsed : Nat
  gasLimit : Nat
  blobGasUsed : Nat
  txs : List WTx
  receipts : List WReceipt
  sidecars : List Nat
  blobs : Nat

/-- Result of one call of core.ApplyTransaction (external execution engine):
success with a receipt and the mutated state, or a failure — the stale-nonce
failure core.ErrNonceTooLow, or any other failure — together with whatever
partial state and gas pool the failed execution left behind before the
callers snapshot revert. -/
inductive EngineOut
  | ok (r : WReceipt) (st : Store)
  | errNonceTooLow (st : Store) (gp : Nat)
  | errOther (st : Store) (gp : Nat)

/-- Modelled from the spec: the execution engine run(state, header, tx) of
section 6, one call of core.ApplyTransaction, deterministic in the
environment and transaction. -/
abbrev Engine := WEnv → WTx → EngineOut

/-- Errors commitTransaction can produce: core.ErrNonceTooLow, the explicit
max-data-blobs error of commitBlobTransaction, or any other execution
failure. -/
inductive ExecErr
  | nonceTooLow
  | blobLimitReached
  | other
deriving DecidableEq

/-- Mirror of applyTransaction (miner/worker.go lines 273-317).  snap and gp
capture the state snapshot and the gas pool before the call (lines 275-276);
core.ApplyTransaction is the engine oracle.  On success the net effect of
the external call is modelled from the spec and the core package contract:
the gas pool shrinks by the receipts gas used and Header.GasUsed grows by
it.  On failure the snapshot and the gas pool value are restored
(lines 296-297 and 311-312), discarding the partial effects the engine left.
The serverMode branch differs only in attaching a tracer, not in the
state or gas behaviour. -/
def applyTransaction (engine : Engine) (env : WEnv) (tx : WTx) :
    WEnv × Except ExecErr WReceipt :=
  let snap := env.state
  let gp := env.gasPool
  match engine env tx with
  | EngineOut.ok r st =>
      ({ env with
          state := st
          gasPool := env.gasPool - r.gasUsed
          gasUsed := env.gasUsed + r.gasUsed }, Except.ok r)
  | EngineOut.errNonceTooLow _ _ =>
      ({ env with state := snap, gasPool := gp }, Except.error ExecErr.nonceTooLow)
  | EngineOut.errOther _ _ =>
      ({ env with state := snap, gasPool := gp }, Except.error ExecErr.other)

/-- Mirror of commitBlobTransaction (miner/worker.go lines 247-270): the
explicit blob-capacity check precedes the execution; on success the
transaction (without its sidecar), receipt and sidecar are appended and the
blob counters grow.  The nil-sidecar panic of line 250 is not modelled: the
loop only reaches this with blob transactions carrying sidecars. -/
def commitBlobTransaction (engine : Engine) (env : WEnv) (tx : WTx) :
    WEnv × Option ExecErr :=
  if (env.blobs + tx.blobCount) * BlobTxBlobGasPerBlob > MaxBlobGasPerBlock then
    (env, some ExecErr.blobLimitReached)
  else
    match applyTransaction engine env tx with
    | (envNew, Except.ok r) =>
        ({ envNew with
            txs := envNew.txs ++ [tx]
            receipts := envNew.receipts ++ [r]
            sidecars := envNew.sidecars ++ [tx.blobCount]
            blobs := envNew.blobs + tx.blobCount
            blobGasUsed := envNew.blobGasUsed + r.blobGasUsed
            tcount := envNew.tcount + 1 }, none)
    | (envNew, Except.error e) => (envNew, some e)

/-- Mirror of commitTransaction (miner/worker.go lines 233-245): blob
transactions are dispatched to commitBlobTransaction; otherwise the
transaction and receipt are appended on success, and a failure leaves the
environment as applyTransaction returned it. -/
def commitTransaction (engine : Engine) (env : WEnv) (tx : WTx) :
    WEnv × Option ExecErr :=
  if tx.isBlob then commitBlobTransaction engine env tx
  else
    match applyTransaction engine env tx with
    | (envNew, Except.ok r) =>
        ({ envNew with
            txs := envNew.txs ++ [tx]
            receipts := envNew.receipts ++ [r]
            tcount := envNew.tcount + 1 }, none)
    | (envNew, Except.error e) => (envNew, some e)

/-- Modelled from the spec (section 4.1): the ordered per-sender queues
behind newTransactionsByPriceAndNonce, whose implementation is outside the
provided sources.  Each inner list is one senders nonce-ascending queue, in
arrival order of the senders. -/
structure TxQueues where
  baseFee : Nat
  queues : List (List WTx)

/-- Modelled from the spec: the effective priority fee of a candidate,
min(priority-fee-cap, fee-cap minus base-fee) clamped at zero (the Nat
subtraction clamps). -/
def effectiveTip (baseFee : Nat) (tx : WTx) : Nat :=
  min tx.gasTipCap (tx.gasFeeCap - baseFee)

/-- Fold step selecting the better head candidate: a strictly higher
effective tip wins, the earlier queue wins ties. -/
def betterHead (baseFee : Nat) (best : Option (Nat × WTx)) (cand : Nat × List WTx) :
    Option (Nat × WTx) :=
  match cand.2 with
  | [] => best
  | t :: _ =>
      match best with
      | none => some (cand.1, t)
      | some (bi, bt) =>
          if effectiveTip baseFee bt < effectiveTip baseFee t then some (cand.1, t)
          else some (bi, bt)

/-- Modelled from the spec: Peek returns the head candidate with the highest
effective tip without advancing, together with its queue index. -/
def TxQueues.peek (q : TxQueues) : Option (Nat × WTx) :=
  q.queues.enum.foldl (betterHead q.baseFee) none

/-- Modelled from the spec: Shift advances the peeked senders queue to its
next transaction. -/
def TxQueues.shift (q : TxQueues) : TxQueues :=
  match q.peek with
  | some (i, _) => { q with queues := q.queues.set i (q.queues.getD i []).tail }
  | none => q

/-- Modelled from the spec: Pop drops the peeked senders entire remaining
queue. -/
def TxQueues.pop (q : TxQueues) : TxQueues :=
  match q.peek with
  | some (i, _) => { q with queues := q.queues.set i [] }
  | none => q

/-- Modelled from the spec: Clear drops every queue. -/
def TxQueues.clear (q : TxQueues) : TxQueues :=
  { q with queues := [] }

/-- Modelled from the spec: Empty reports whether every queue is empty. -/
def TxQueues.isEmptyQ (q : TxQueues) : Bool :=
  q.queues.all List.isEmpty

/-- State threaded through the commit loop: the environment and the two
ordered queues. -/
structure LoopState where
  env : WEnv
  plainTxs : TxQueues
  blobTxs : TxQueues

/-- Outcome of one iteration of the commit loop: return with the interrupt
signal, break out of the loop, or continue with the next state.  applied
records whether commitTransaction was invoked this iteration. -/
inductive IterRes
  | stop (sig : CommitInterrupt)
  | brk
  | next (st : LoopState) (applied : Bool)

/-- Cast of a Go int to uint64: reduce modulo 2^64 and read nonnegatively. -/
def u64cast (z : Int) : Nat :=
  (z % ((2 : Int) ^ 64)).toNat

/-- Mirror of the remaining blob gas computed at miner/worker.go line 373:
uint64(params.MaxBlobGasPerBlock - env.Blobs*params.BlobTxBlobGasPerBlob),
an int subtraction cast to uint64, hence wrapping when the product exceeds
the maximum. -/
def blobGasLeft (env : WEnv) : Nat :=
  u64cast ((MaxBlobGasPerBlock : Int) - (env.blobs : Int) * (BlobTxBlobGasPerBlob : Int))

/-- Mirror of the candidate selection (miner/worker.go lines 344-365): peek
both queues; with both present the blob candidate is taken exactly when the
plain tip is strictly lower; the Bool is true when the plain queue was
selected. -/
def selectTx (pq bq : TxQueues) : Option (Bool × WTx) :=
  match pq.peek, bq.peek with
  | none, none => none
  | none, some (_, bt) => some (false, bt)
  | some (_, pt), none => some (true, pt)
  | some (_, pt), some (_, bt) =>
      if effectiveTip pq.baseFee pt < effectiveTip bq.baseFee bt then some (false, bt)
      else some (true, pt)

/-- Shift of the selected queue (true selects the plain queue). -/
def shiftSel (which : Bool) (st : LoopState) : LoopState :=
  if which then { st with plainTxs := st.plainTxs.shift }
  else { st with blobTxs := st.blobTxs.shift }

/-- Pop of the selected queue (true selects the plain queue). -/
def popSel (which : Bool) (st : LoopState) : LoopState :=
  if which then { st with plainTxs := st.plainTxs.pop }
  else { st with blobTxs := st.blobTxs.pop }

/-- Mirror of the blob-queue clearing (miner/worker.go lines 339-343): when
the blob queue is nonempty but no blob space remains, it is cleared and the
iteration falls through to the plain queue. -/
def clearBlobsIfFull (st : LoopState) : LoopState :=
  if st.blobTxs.isEmptyQ = false ∧
      MaxBlobGasPerBlock ≤ st.env.blobs * BlobTxBlobGasPerBlob then
    { st with blobTxs := st.blobTxs.clear }
  else st

/-- Mirror of the body of one commitTransactions iteration after candidate
selection (miner/worker.go lines 367-416): the gas budget, blob budget,
resolution and replay-protection guards each pop the senders queue and
continue; then the transaction is executed and the outcome dispatched — nil
error and ErrNonceTooLow shift, every other error pops. -/
def iterExec (engine : Engine) (eip155 : Bool) (st : LoopState)
    (which : Bool) (ltx : WTx) : IterRes :=
  if st.env.gasPool < ltx.gas then IterRes.next (popSel which st) false
  else if blobGasLeft st.env < ltx.blobGas then IterRes.next (popSel which st) false
  else if ltx.evicted then IterRes.next (popSel which st) false
  else if ltx.isProtected && !eip155 then IterRes.next (popSel which st) false
  else
    match commitTransaction engine st.env ltx with
    | (envNew, none) => IterRes.next { shiftSel which st with env := envNew } true
    | (envNew, some ExecErr.nonceTooLow) =>
        IterRes.next { shiftSel which st with env := envNew } true
    | (envNew, some _) => IterRes.next { popSel which st with env := envNew } true

/-- Mirror of one full iteration of the commit loop (miner/worker.go
lines 325-417): the interrupt check, the minimum-gas check, the blob-queue
clearing, the candidate selection, then iterExec. -/
def commitIter (engine : Engine) (eip155 : Bool) (sig : CommitInterrupt)
    (st : LoopState) : IterRes :=
  if sig ≠ CommitInterrupt.none then IterRes.stop sig
  else if st.env.gasPool < TxGas then IterRes.brk
  else
    match selectTx (clearBlobsIfFull st).plainTxs (clearBlobsIfFull st).blobTxs with
    | none => IterRes.brk
    | some (which, ltx) => iterExec engine eip155 (clearBlobsIfFull st) which ltx

/-- Result of a run of the commit loop: the final environment and queues,
the returned error, the signal that caused a stop (none for a normal
break), and the list of iteration indices at which a transaction was
executed. -/
structure RunResult where
  env : WEnv
  plainTxs : TxQueues
  blobTxs : TxQueues
  err : Option BuildErr
  stopSig : CommitInterrupt
  log : List Nat

/-- Mirror of the for loop of commitTransactions (miner/worker.go
lines 325-417), instrumented with fuel (each Go iteration consumes a
transaction from the finite queues, so a large enough fuel reproduces the
full run), an iteration counter, and the sequence of values the repeated
interrupt.Load() reads. -/
def commitLoop (engine : Engine) (eip155 : Bool) (signals : Nat → CommitInterrupt) :
    Nat → Nat → LoopState → RunResult
  | 0, _, st =>
      { env := st.env, plainTxs := st.plainTxs, blobTxs := st.blobTxs
        err := none, stopSig := CommitInterrupt.none, log := [] }
  | fuel + 1, i, st =>
      match commitIter engine eip155 (signals i) st with
      | IterRes.stop s =>
          { env := st.env, plainTxs := st.plainTxs, blobTxs := st.blobTxs
            err := signalToErr s, stopSig := s, log := [] }
      | IterRes.brk =>
          { env := st.env, plainTxs := st.plainTxs, blobTxs := st.blobTxs
            err := none, stopSig := CommitInterrupt.none, log := [] }
      | IterRes.next st1 applied =>
          let r := commitLoop engine eip155 signals fuel (i + 1) st1
          if applied then { r with log := i :: r.log } else r

/-- Mirror of commitTransactions (miner/worker.go lines 319-419): a nil gas
pool is initialised to the header gas limit, then the loop runs from
iteration zero. -/
def commitTransactions (engine : Engine) (eip155 : Bool)
    (signals : Nat → CommitInterrupt) (gasPoolInit : Option Nat) (env : WEnv)
    (plainTxs blobTxs : TxQueues) (fuel : Nat) : RunResult :=
  commitLoop engine eip155 signals fuel 0
    { env := { env with gasPool := gasPoolInit.getD env.gasLimit }
      plainTxs := plainTxs, blobTxs := blobTxs }

/-! Concrete inputs used by counterexamples and witnesses. -/

/-- Store whose accounts are all zero. -/
def zeroStore : Store :=
  fun _ => { balance := 0, nonce := 0, code := [], storage := fun _ => 0 }

/-- Deletion-shaped diff the reconciler emits for an address absent from
post (miner/client.go lines 300-305): zero balance, zero nonce, nil code,
empty storage. -/
def deletionDiff : Account :=
  { balance := some 0, nonce := 0, code := none, storage := fun _ => none }

/-- Pre snapshot of the C3 failing input: address 1 with balance 5 and
nonce 1. -/
def c3Pre : StateMap := fun addr =>
  if addr = 1 then
    some { balance := some 5, code := none, nonce := 1, storage := fun _ => none }
  else none

/-- Post snapshot of the C3 failing input: same balance 5, nonce bumped
to 2. -/
def c3Post : StateMap := fun addr =>
  if addr = 1 then
    some { balance := some 5, code := none, nonce := 2, storage := fun _ => none }
  else none

/-- Local store matching the C3 pre snapshot. -/
def c3Store : Store :=
  fun _ => { balance := 5, nonce := 1, code := [], storage := fun _ => 0 }

/-- Client environment of the C2 counterexample: 50 gas already used,
limit 100. -/
def c2Env : CEnv :=
  { store := zeroStore, gasUsed := 50, gasLimit := 100, txs := [], tcount := 0
    receipts := [] }

/-- Batch record of the C2 counterexample: its receipt gas is so large that
the uint64 accumulation wraps to 40. -/
def c2Rec : StateModification :=
  { pre := fun _ => none
    post := fun addr =>
      if addr = 1 then
        some { balance := some 7, code := none, nonce := 0, storage := fun _ => none }
      else none
    tx := some 1
    receipt := some { gasUsed := U64 - 10 } }

/-- Batch record of the C2 witness: 200 gas against limit 100, rejected. -/
def c2wRec : StateModification :=
  { pre := fun _ => none, post := fun _ => none, tx := some 2
    receipt := some { gasUsed := 200 } }

/-- Client environment of the C9 evaluation. -/
def c9Env : CEnv :=
  { store := zeroStore, gasUsed := 0, gasLimit := 100, txs := [], tcount := 0
    receipts := [] }

/-- Attestation report satisfying every check of verifyReport against the
certificate hash [1, 2, 3] and signer [7, 7] (productID [210, 4] is 1234 in
little-endian). -/
def c1Report : AttReport :=
  { data := [1, 2, 3], securityVersion := 2, productID := [210, 4], signerID := [7, 7] }

/-- Same report with a wrong signer identity. -/
def c1BadSigner : AttReport :=
  { c1Report with signerID := [9, 9] }

/-- Plain candidate transaction used by the worker examples. -/
def c5Tx : WTx :=
  { sender := 1, nonce := 0, gas := 21000, blobGas := 0, isBlob := false
    blobCount := 0, gasFeeCap := 10, gasTipCap := 5, isProtected := false
    evicted := false }

/-- Worker environment used by the C5 witness. -/
def c5Env : WEnv :=
  { state := zeroStore, tcount := 0, gasPool := 1000000, gasUsed := 0
    gasLimit := 1000000, blobGasUsed := 0, txs := [], receipts := []
    sidecars := [], blobs := 0 }

/-- Store standing for the partial effects a failed execution leaves. -/
def junkStore : Store :=
  fun _ => { balance := 99, nonce := 9, code := [1], storage := fun _ => 3 }

/-- Engine that always fails, leaving junk partial effects behind. -/
def c5Engine : Engine :=
  fun _ _ => EngineOut.errOther junkStore 0

/-- Engine that always succeeds, consuming exactly the transaction gas. -/
def okEngine : Engine :=
  fun _ tx => EngineOut.ok { gasUsed := tx.gas, blobGasUsed := 0 } zeroStore

/-- Worker environment used by the C6 witness. -/
def c6Env : WEnv :=
  { state := zeroStore, tcount := 0, gasPool := 30000000, gasUsed := 0
    gasLimit := 30000000, blobGasUsed := 0, txs := [], receipts := []
    sidecars := [], blobs := 0 }

/-- Loop state of the C6 witness: one plain candidate, no blob queues. -/
def c6St : LoopState :=
  { env := c6Env
    plainTxs := { baseFee := 0, queues := [[c5Tx]] }
    blobTxs := { baseFee := 0, queues := [] } }

/-- Loop state of the C7 witness. -/
def c7St : LoopState :=
  { env := { state := zeroStore, tcount := 0, gasPool := 100000, gasUsed := 0
             gasLimit := 100000, blobGasUsed := 0, txs := [], receipts := []
             sidecars := [], blobs := 0 }
    plainTxs := { baseFee := 0, queues := [[c5Tx]] }
    blobTxs := { baseFee := 0, queues := [] } }

/-- Client environment of the C7 counterexample before the remote batch:
zero gas used against limit 100000 and a nil gas pool. -/
def c7PreEnv : CEnv :=
  { store := zeroStore, gasUsed := 0, gasLimit := 100000, txs := [], tcount := 0
    receipts := [] }

/-- Remote batch record of the C7 counterexample: its receipt charges the
whole gas limit, which the admission check accepts (100000 is not above the
limit), pre-charging Header.GasUsed while GasPool is still nil. -/
def c7PreRec : StateModification :=
  { pre := fun _ => none, post := fun _ => none, tx := some 1
    receipt := some { gasUsed := 100000 } }

/-- Worker environment the client-mode attempt hands to commitTransactions
after the remote batch of c7PreRec: Header.GasUsed already equals the gas
limit, the gas pool still unset (nil). -/
def c7BadEnv : WEnv :=
  { state := zeroStore, tcount := 1, gasPool := 0, gasUsed := 100000
    gasLimit := 100000, blobGasUsed := 0, txs := [], receipts := []
    sidecars := [], blobs := 0 }

/-- Plain queue of the C7 counterexample: one local 21000-gas candidate. -/
def c7BadPlain : TxQueues :=
  { baseFee := 0, queues := [[c5Tx]] }

/-- Empty blob queue of the C7 counterexample. -/
def c7EmptyBlob : TxQueues :=
  { baseFee := 0, queues := [] }

/-- Signal sequence of the C8 witness: none at iteration 0, then the
timeout signal. -/
def c8Signals : Nat → CommitInterrupt :=
  fun i => if i = 0 then CommitInterrupt.none else CommitInterrupt.timeout

/-- Loop state of the C8 witness. -/
def c8St : LoopState :=
  { env := c6Env
    plainTxs := { baseFee := 0, queues := [[c5Tx, c5Tx]] }
    blobTxs := { baseFee := 0, queues := [] } }

/-- Store with nonzero fields, used to watch the deletion diff frame. -/
def c10Store : Store :=
  fun _ => { balance := 42, nonce := 7, code := [1, 2], storage := fun _ => 5 }

end Miner

namespace Miner

/-! Helper lemmas. -/

theorem applyAccountDiff_balance (acc : Account) (a : StoredAccount) :
    (applyAccountDiff acc a).balance =
      match acc.balance with
      | some b => toU256 b
      | none => a.balance := by
  unfold applyAccountDiff
  cases acc.balance <;> cases acc.code <;> by_cases hn : acc.nonce = 0 <;> simp [hn]

theorem applyAccountDiff_nonce (acc : Account) (a : StoredAccount) :
    (applyAccountDiff acc a).nonce = if acc.nonce ≠ 0 then acc.nonce else a.nonce := by
  unfold applyAccountDiff
  cases acc.balance <;> cases acc.code <;> by_cases hn : acc.nonce = 0 <;> simp [hn]

theorem applyAccountDiff_code (acc : Account) (a : StoredAccount) :
    (applyAccountDiff acc a).code =
      match acc.code with
      | some c => c
      | none => a.code := by
  unfold applyAccountDiff
  cases acc.balance <;> cases acc.code <;> by_cases hn : acc.nonce = 0 <;> simp [hn]

theorem applyAccountDiff_storage (acc : Account) (a : StoredAccount) (key : Hash) :
    (applyAccountDiff acc a).storage key =
      match acc.storage key with
      | some v => v
      | none => a.storage key := by
  unfold applyAccountDiff
  cases acc.balance <;> cases acc.code <;> by_cases hn : acc.nonce = 0 <;>
    cases hs : acc.storage key <;> simp [hn, hs]

theorem StoredAccount.ext_of (a b : StoredAccount) (h1 : a.balance = b.balance)
    (h2 : a.nonce = b.nonce) (h3 : a.code = b.code)
    (h4 : ∀ key, a.storage key = b.storage key) : a = b := by
  cases a
  cases b
  simp_all
  exact funext h4

theorem applyAccountDiff_idem (acc : Account) (a : StoredAccount) :
    applyAccountDiff acc (applyAccountDiff acc a) = applyAccountDiff acc a := by
  apply StoredAccount.ext_of
  · rw [applyAccountDiff_balance, applyAccountDiff_balance]
    cases hb : acc.balance <;> simp [hb]
  · rw [applyAccountDiff_nonce, applyAccountDiff_nonce]
    by_cases hn : acc.nonce = 0 <;> simp [hn]
  · rw [applyAccountDiff_code, applyAccountDiff_code]
    cases hc : acc.code <;> simp [hc]
  · intro key
    rw [applyAccountDiff_storage, applyAccountDiff_storage]
    cases hs : acc.storage key <;> simp [hs]

theorem clearBlobsIfFull_env (st : LoopState) : (clearBlobsIfFull st).env = st.env := by
  unfold clearBlobsIfFull
  split <;> rfl

theorem popSel_env (which : Bool) (st : LoopState) : (popSel which st).env = st.env := by
  cases which <;> rfl

theorem shiftSel_env (which : Bool) (st : LoopState) : (shiftSel which st).env = st.env := by
  cases which <;> rfl

theorem shiftSel_set_env (which : Bool) (st : LoopState) :
    { shiftSel which st with env := st.env } = shiftSel which st := by
  cases which <;> rfl

theorem popSel_set_env (which : Bool) (st : LoopState) :
    { popSel which st with env := st.env } = popSel which st := by
  cases which <;> rfl

theorem applyTransaction_frame (engine : Engine) (env : WEnv) (tx : WTx) :
    (applyTransaction engine env tx).1.txs = env.txs ∧
    (applyTransaction engine env tx).1.receipts = env.receipts ∧
    (applyTransaction engine env tx).1.tcount = env.tcount ∧
    (applyTransaction engine env tx).1.blobs = env.blobs ∧
    (applyTransaction engine env tx).1.gasLimit = env.gasLimit := by
  unfold applyTransaction
  cases hg : engine env tx <;> exact ⟨rfl, rfl, rfl, rfl, rfl⟩

theorem applyTransaction_error_env (engine : Engine) (env : WEnv) (tx : WTx)
    (envNew : WEnv) (e : ExecErr)
    (h : applyTransaction engine env tx = (envNew, Except.error e)) : envNew = env := by
  unfold applyTransaction at h
  cases hg : engine env tx <;> rw [hg] at h <;> simp only [Prod.mk.injEq] at h
  · exact Except.noConfusion h.2
  · exact h.1.symm
  · exact h.1.symm

theorem applyTransaction_ok_gas (engine : Engine)
    (hEng : ∀ env2 tx2 r st, engine env2 tx2 = EngineOut.ok r st → r.gasUsed ≤ tx2.gas)
    (env : WEnv) (tx : WTx) (env1 : WEnv) (r : WReceipt)
    (h : applyTransaction engine env tx = (env1, Except.ok r)) :
    env1.gasUsed = env.gasUsed + r.gasUsed ∧ env1.gasPool = env.gasPool - r.gasUsed ∧
    r.gasUsed ≤ tx.gas := by
  unfold applyTransaction at h
  cases hg : engine env tx <;> rw [hg] at h <;>
    simp only [Prod.mk.injEq, Except.ok.injEq] at h
  case ok r0 st0 =>
    obtain ⟨h1, h2⟩ := h
    subst h2
    exact ⟨by rw [← h1], by rw [← h1], hEng env tx r0 st0 hg⟩
  case errNonceTooLow st0 gp0 => exact absurd h.2 (fun hh => Except.noConfusion hh)
  case errOther st0 gp0 => exact absurd h.2 (fun hh => Except.noConfusion hh)

theorem commitTransaction_error_env (engine : Engine) (env : WEnv) (tx : WTx)
    (envNew : WEnv) (e : ExecErr)
    (h : commitTransaction engine env tx = (envNew, some e)) : envNew = env := by
  unfold commitTransaction at h
  by_cases hb : tx.isBlob
  · rw [if_pos hb] at h
    unfold commitBlobTransaction at h
    by_cases hcap : (env.blobs + tx.blobCount) * BlobTxBlobGasPerBlob > MaxBlobGasPerBlock
    · rw [if_pos hcap] at h
      simp only [Prod.mk.injEq] at h
      exact h.1.symm
    · rw [if_neg hcap] at h
      cases ha : applyTransaction engine env tx with
      | mk env1 ex =>
        rw [ha] at h
        cases ex with
        | ok r => simp at h
        | error e1 =>
          simp only [Prod.mk.injEq] at h
          rw [← h.1]
          exact applyTransaction_error_env engine env tx env1 e1 ha
  · rw [if_neg hb] at h
    cases ha : applyTransaction engine env tx with
    | mk env1 ex =>
      rw [ha] at h
      cases ex with
      | ok r => simp at h
      | error e1 =>
        simp only [Prod.mk.injEq] at h
        rw [← h.1]
        exact applyTransaction_error_env engine env tx env1 e1 ha

theorem commitTransaction_ok_appends (engine : Engine) (env : WEnv) (tx : WTx)
    (envNew : WEnv) (h : commitTransaction engine env tx = (envNew, none)) :
    ∃ r : WReceipt, envNew.txs = env.txs ++ [tx] ∧
      envNew.receipts = env.receipts ++ [r] ∧ envNew.tcount = env.tcount + 1 := by
  unfold commitTransaction at h
  by_cases hb : tx.isBlob
  · rw [if_pos hb] at h
    unfold commitBlobTransaction at h
    by_cases hcap : (env.blobs + tx.blobCount) * BlobTxBlobGasPerBlob > MaxBlobGasPerBlock
    · rw [if_pos hcap] at h
      simp at h
    · rw [if_neg hcap] at h
      cases ha : applyTransaction engine env tx with
      | mk env1 ex =>
        rw [ha] at h
        cases ex with
        | error e1 => simp at h
        | ok r =>
          simp only [Prod.mk.injEq] at h
          obtain ⟨h1, -⟩ := h
          have hf := applyTransaction_frame engine env tx
          rw [ha] at hf
          refine ⟨r, ?_, ?_, ?_⟩ <;> rw [← h1]
          · show env1.txs ++ [tx] = env.txs ++ [tx]
            rw [hf.1]
          · show env1.receipts ++ [r] = env.receipts ++ [r]
            rw [hf.2.1]
          · show env1.tcount + 1 = env.tcount + 1
            rw [hf.2.2.1]
  · rw [if_neg hb] at h
    cases ha : applyTransaction engine env tx with
    | mk env1 ex =>
      rw [ha] at h
      cases ex with
      | error e1 => simp at h
      | ok r =>
        simp only [Prod.mk.injEq] at h
        obtain ⟨h1, -⟩ := h
        have hf := applyTransaction_frame engine env tx
        rw [ha] at hf
        refine ⟨r, ?_, ?_, ?_⟩ <;> rw [← h1]
        · show env1.txs ++ [tx] = env.txs ++ [tx]
          rw [hf.1]
        · show env1.receipts ++ [r] = env.receipts ++ [r]
          rw [hf.2.1]
        · show env1.tcount + 1 = env.tcount + 1
          rw [hf.2.2.1]

theorem commitTransaction_budget (engine : Engine)
    (hEng : ∀ env2 tx2 r st, engine env2 tx2 = EngineOut.ok r st → r.gasUsed ≤ tx2.gas)
    (env : WEnv) (tx : WTx) (L : Nat)
    (hgas : tx.gas ≤ env.gasPool) (hsum : env.gasUsed + env.gasPool ≤ L)
    (hblob : env.blobs * BlobTxBlobGasPerBlob ≤ MaxBlobGasPerBlock)
    (envNew : WEnv) (eo : Option ExecErr)
    (h : commitTransaction engine env tx = (envNew, eo)) :
    envNew.gasUsed + envNew.gasPool ≤ L ∧
    envNew.blobs * BlobTxBlobGasPerBlob ≤ MaxBlobGasPerBlock := by
  cases eo with
  | some e =>
      have he := commitTransaction_error_env engine env tx envNew e h
      subst he
      exact ⟨hsum, hblob⟩
  | none =>
      unfold commitTransaction at h
      by_cases hb : tx.isBlob
      · rw [if_pos hb] at h
        unfold commitBlobTransaction at h
        by_cases hcap : (env.blobs + tx.blobCount) * BlobTxBlobGasPerBlob > MaxBlobGasPerBlock
        · rw [if_pos hcap] at h
          simp at h
        · rw [if_neg hcap] at h
          cases ha : applyTransaction engine env tx with
          | mk env1 ex =>
            rw [ha] at h
            cases ex with
            | error e1 => simp at h
            | ok r =>
              simp only [Prod.mk.injEq] at h
              obtain ⟨h1, -⟩ := h
              obtain ⟨hg1, hg2, hrg⟩ := applyTransaction_ok_gas engine hEng env tx env1 r ha
              have hr : r.gasUsed ≤ env.gasPool := le_trans hrg hgas
              have hf := applyTransaction_frame engine env tx
              rw [ha] at hf
              constructor
              · rw [← h1]
                show env1.gasUsed + env1.gasPool ≤ L
                rw [hg1, hg2, Nat.add_assoc, Nat.add_sub_cancel' hr]
                exact hsum
              · rw [← h1]
                show (env1.blobs + tx.blobCount) * BlobTxBlobGasPerBlob ≤ MaxBlobGasPerBlock
                rw [hf.2.2.2.1]
                exact Nat.le_of_not_lt hcap
      · rw [if_neg hb] at h
        cases ha : applyTransaction engine env tx with
        | mk env1 ex =>
          rw [ha] at h
          cases ex with
          | error e1 => simp at h
          | ok r =>
            simp only [Prod.mk.injEq] at h
            obtain ⟨h1, -⟩ := h
            obtain ⟨hg1, hg2, hrg⟩ := applyTransaction_ok_gas engine hEng env tx env1 r ha
            have hr : r.gasUsed ≤ env.gasPool := le_trans hrg hgas
            have hf := applyTransaction_frame engine env tx
            rw [ha] at hf
            constructor
            · rw [← h1]
              show env1.gasUsed + env1.gasPool ≤ L
              rw [hg1, hg2, Nat.add_assoc, Nat.add_sub_cancel' hr]
              exact hsum
            · rw [← h1]
              show env1.blobs * BlobTxBlobGasPerBlob ≤ MaxBlobGasPerBlock
              rw [hf.2.2.2.1]
              exact hblob

theorem commitIter_next_sig (engine : Engine) (eip155 : Bool) (sig : CommitInterrupt)
    (st st1 : LoopState) (applied : Bool)
    (h : commitIter engine eip155 sig st = IterRes.next st1 applied) :
    sig = CommitInterrupt.none := by
  by_cases hs : sig = CommitInterrupt.none
  · exact hs
  · unfold commitIter at h
    rw [if_pos hs] at h
    exact absurd h (by simp)

theorem commitIter_next_budget (engine : Engine)
    (hEng : ∀ env2 tx2 r st, engine env2 tx2 = EngineOut.ok r st → r.gasUsed ≤ tx2.gas)
    (eip155 : Bool) (sig : CommitInterrupt) (st st1 : LoopState) (applied : Bool) (L : Nat)
    (hsum : st.env.gasUsed + st.env.gasPool ≤ L)
    (hblob : st.env.blobs * BlobTxBlobGasPerBlob ≤ MaxBlobGasPerBlock)
    (h : commitIter engine eip155 sig st = IterRes.next st1 applied) :
    st1.env.gasUsed + st1.env.gasPool ≤ L ∧
    st1.env.blobs * BlobTxBlobGasPerBlob ≤ MaxBlobGasPerBlock := by
  unfold commitIter at h
  by_cases hs : sig = CommitInterrupt.none
  · rw [if_neg (fun hne => hne hs)] at h
    by_cases hp : st.env.gasPool < TxGas
    · rw [if_pos hp] at h
      exact absurd h (by simp)
    · rw [if_neg hp] at h
      cases hsel : selectTx (clearBlobsIfFull st).plainTxs (clearBlobsIfFull st).blobTxs with
      | none =>
          rw [hsel] at h
          exact absurd h (by simp)
      | some wl =>
          obtain ⟨which, ltx⟩ := wl
          rw [hsel] at h
          replace h : iterExec engine eip155 (clearBlobsIfFull st) which ltx =
              IterRes.next st1 applied := h
          have hce := clearBlobsIfFull_env st
          unfold iterExec at h
          by_cases hg1 : (clearBlobsIfFull st).env.gasPool < ltx.gas
          · rw [if_pos hg1] at h
            injection h with ha1 ha2
            subst ha1
            rw [popSel_env, hce]
            exact ⟨hsum, hblob⟩
          · rw [if_neg hg1] at h
            by_cases hg2 : blobGasLeft (clearBlobsIfFull st).env < ltx.blobGas
            · rw [if_pos hg2] at h
              injection h with ha1 ha2
              subst ha1
              rw [popSel_env, hce]
              exact ⟨hsum, hblob⟩
            · rw [if_neg hg2] at h
              by_cases hg3 : ltx.evicted = true
              · rw [if_pos hg3] at h
                injection h with ha1 ha2
                subst ha1
                rw [popSel_env, hce]
                exact ⟨hsum, hblob⟩
              · rw [if_neg hg3] at h
                by_cases hg4 : (ltx.isProtected && !eip155) = true
                · rw [if_pos hg4] at h
                  injection h with ha1 ha2
                  subst ha1
                  rw [popSel_env, hce]
                  exact ⟨hsum, hblob⟩
                · rw [if_neg hg4] at h
                  cases hct : commitTransaction engine (clearBlobsIfFull st).env ltx with
                  | mk envN eo =>
                    have hbud := commitTransaction_budget engine hEng
                      (clearBlobsIfFull st).env ltx L (Nat.le_of_not_lt hg1)
                      (by rw [hce]; exact hsum) (by rw [hce]; exact hblob) envN eo hct
                    rw [hct] at h
                    cases eo with
                    | none =>
                        injection h with ha1 ha2
                        subst ha1
                        exact hbud
                    | some e =>
                        cases e with
                        | nonceTooLow =>
                            injection h with ha1 ha2
                            subst ha1
                            exact hbud
                        | blobLimitReached =>
                            injection h with ha1 ha2
                            subst ha1
                            exact hbud
                        | other =>
                            injection h with ha1 ha2
                            subst ha1
                            exact hbud
  · rw [if_pos hs] at h
    exact absurd h (by simp)

theorem commitLoop_budget (engine : Engine)
    (hEng : ∀ env2 tx2 r st, engine env2 tx2 = EngineOut.ok r st → r.gasUsed ≤ tx2.gas)
    (eip155 : Bool) (signals : Nat → CommitInterrupt) (L : Nat) :
    ∀ (fuel i : Nat) (st : LoopState),
      st.env.gasUsed + st.env.gasPool ≤ L →
      st.env.blobs * BlobTxBlobGasPerBlob ≤ MaxBlobGasPerBlock →
      (commitLoop engine eip155 signals fuel i st).env.gasUsed +
        (commitLoop engine eip155 signals fuel i st).env.gasPool ≤ L ∧
      (commitLoop engine eip155 signals fuel i st).env.blobs * BlobTxBlobGasPerBlob ≤
        MaxBlobGasPerBlock := by
  intro fuel
  induction fuel with
  | zero =>
      intro i st h1 h2
      exact ⟨h1, h2⟩
  | succ n ih =>
      intro i st h1 h2
      simp only [commitLoop]
      cases hit : commitIter engine eip155 (signals i) st with
      | stop s =>
          exact ⟨h1, h2⟩
      | brk =>
          exact ⟨h1, h2⟩
      | next st1 applied =>
          have hpres := commitIter_next_budget engine hEng eip155 (signals i) st st1
            applied L h1 h2 hit
          have hrec := ih (i + 1) st1 hpres.1 hpres.2
          cases applied <;> exact hrec

theorem commitLoop_log_signals (engine : Engine) (eip155 : Bool)
    (signals : Nat → CommitInterrupt) :
    ∀ (fuel i : Nat) (st : LoopState) (j : Nat),
      j ∈ (commitLoop engine eip155 signals fuel i st).log →
      signals j = CommitInterrupt.none := by
  intro fuel
  induction fuel with
  | zero =>
      intro i st j hj
      simp [commitLoop] at hj
  | succ n ih =>
      intro i st j hj
      simp only [commitLoop] at hj
      cases hit : commitIter engine eip155 (signals i) st with
      | stop s =>
          rw [hit] at hj
          simp at hj
      | brk =>
          rw [hit] at hj
          simp at hj
      | next st1 applied =>
          rw [hit] at hj
          cases applied with
          | false => exact ih (i + 1) st1 j hj
          | true =>
              have hj2 : j ∈ i :: (commitLoop engine eip155 signals n (i + 1) st1).log := hj
              rcases List.mem_cons.mp hj2 with rfl | hmem
              · exact commitIter_next_sig engine eip155 (signals j) st st1 true hit
              · exact ih (i + 1) st1 j hmem

theorem commitLoop_err_stopSig (engine : Engine) (eip155 : Bool)
    (signals : Nat → CommitInterrupt) :
    ∀ (fuel i : Nat) (st : LoopState),
      (commitLoop engine eip155 signals fuel i st).err =
        signalToErr (commitLoop engine eip155 signals fuel i st).stopSig := by
  intro fuel
  induction fuel with
  | zero => intro i st; rfl
  | succ n ih =>
      intro i st
      simp only [commitLoop]
      cases hit : commitIter engine eip155 (signals i) st with
      | stop s => rfl
      | brk => rfl
      | next st1 applied => cases applied <;> exact ih (i + 1) st1

/-! Claim theorems for the client side. -/

/-- C4: for every diff map and every starting store, applying the diff twice
with updateState yields the same store as applying it once. -/
theorem c4_updateState_idempotent (updates : Addr → Option Account) (st : Store) :
    updateState updates (updateState updates st) = updateState updates st := by
  funext addr
  unfold updateState
  cases h : updates addr with
  | none => simp [h]
  | some acc => simp [h, applyAccountDiff_idem]

/-- C10: updateState leaves the nonce unchanged when the diff nonce is zero
and the code unchanged when the diff code is nil; hence the deletion-shaped
diff zeroes the balance but never touches nonce, code or storage. -/
theorem c10_sparse_patch_frame :
    (∀ (updates : Addr → Option Account) (st : Store) (addr : Addr) (acc : Account),
        updates addr = some acc → acc.nonce = 0 →
        (updateState updates st addr).nonce = (st addr).nonce) ∧
    (∀ (updates : Addr → Option Account) (st : Store) (addr : Addr) (acc : Account),
        updates addr = some acc → acc.code = none →
        (updateState updates st addr).code = (st addr).code) ∧
    (∀ (st : Store) (addr : Addr),
        (updateState (fun _ => some deletionDiff) st addr).balance = 0 ∧
        (updateState (fun _ => some deletionDiff) st addr).nonce = (st addr).nonce ∧
        (updateState (fun _ => some deletionDiff) st addr).code = (st addr).code ∧
        ∀ key,
          (updateState (fun _ => some deletionDiff) st addr).storage key =
            (st addr).storage key) := by
  refine ⟨?_, ?_, ?_⟩
  · intro updates st addr acc h hn
    unfold updateState
    simp [h, applyAccountDiff_nonce, hn]
  · intro updates st addr acc h hc
    unfold updateState
    simp [h, applyAccountDiff_code, hc]
  · intro st addr
    unfold updateState
    refine ⟨?_, ?_, ?_, ?_⟩
    · simp [applyAccountDiff_balance, deletionDiff, toU256]
    · simp [applyAccountDiff_nonce, deletionDiff]
    · simp [applyAccountDiff_code, deletionDiff]
    · intro key
      simp [applyAccountDiff_storage, deletionDiff]

/-- Witness of C10 at a concrete store: the deletion diff zeroes the balance
of address 3 while leaving its nonce 7, code [1, 2] and storage slot 0
at 5. -/
theorem c10_sparse_patch_frame_witness :
    (updateState (fun _ => some deletionDiff) c10Store 3).balance = 0 ∧
    (updateState (fun _ => some deletionDiff) c10Store 3).nonce = 7 ∧
    (updateState (fun _ => some deletionDiff) c10Store 3).code = [1, 2] ∧
    (updateState (fun _ => some deletionDiff) c10Store 3).storage 0 = 5 := by
  have h := c10_sparse_patch_frame.2.2 c10Store 3
  exact ⟨h.1, h.2.1.trans rfl, h.2.2.1.trans rfl, (h.2.2.2 0).trans rfl⟩

set_option maxRecDepth 10000 in
/-- C3: evaluation at the failing input pre = {addr 1 with balance 5,
nonce 1} and post = {addr 1 with balance 5, nonce 2}.  The reconciler
records balance zero for the unchanged balance (the update entry is
initialised with a non-nil zero big.Int), so applying the diff to a store
matching pre zeroes the balance instead of reproducing the post value 5. -/
theorem c3_reconciler_zeroes_unchanged_balance :
    Option.map Account.balance (comparePrePostStates c3Pre c3Post 1) = some (some 0) ∧
    Option.map Account.balance (c3Post 1) = some (some 5) ∧
    (updateState (comparePrePostStates c3Pre c3Post) c3Store 1).balance = 0 ∧
    ¬ (updateState (comparePrePostStates c3Pre c3Post) c3Store 1).balance = 5 := by
  refine ⟨by decide, by decide, by decide, by decide⟩

set_option maxRecDepth 10000 in
/-- C2 counterexample: with 50 gas already accumulated against limit 100, a
record whose receipt reports 2^64 - 10 gas makes the mathematical sum exceed
the limit, yet the uint64 accumulation wraps to 40, the check passes, the
gas is counted, the transaction admitted and its diff applied. -/
theorem c2_wrapped_admission_counterexample :
    100 < 50 + (U64 - 10) ∧
    (processRecord c2Env c2Rec).gasUsed = 40 ∧
    (processRecord c2Env c2Rec).tcount = c2Env.tcount + 1 ∧
    ((processRecord c2Env c2Rec).store 1).balance = 7 ∧
    (c2Env.store 1).balance = 0 := by
  refine ⟨by decide, by decide, by decide, by decide, by decide⟩

/-- C2 (amended): the admission check compares the uint64-wrapped sum of
accumulated and receipt gas against the limit; when that wrapped sum exceeds
the limit the record is a no-op — its diff is not applied, its gas not
counted, its transaction and receipt not appended — and the batch fold keeps
every earlier accepted record in place.  Absent uint64 overflow the wrapped
sum is the plain sum, giving the original claim. -/
theorem c2_amended_batch_admission :
    (∀ (env : CEnv) (sm : StateModification) (r : RReceipt),
        sm.receipt = some r → env.gasLimit < (env.gasUsed + r.gasUsed) % U64 →
        processRecord env sm = env) ∧
    (∀ (env : CEnv) (sms1 sms2 : List StateModification),
        processBatch env (sms1 ++ sms2) = processBatch (processBatch env sms1) sms2) := by
  constructor
  · intro env sm r hr hgt
    unfold processRecord
    rw [hr]
    simp [hgt]
  · intro env sms1 sms2
    unfold processBatch
    exact List.foldl_append _ _ _ _

set_option maxRecDepth 10000 in
/-- Witness of C2 (amended): a record reporting 200 gas against limit 100 is
rejected and leaves the environment untouched. -/
theorem c2_amended_batch_admission_witness :
    c2wRec.receipt = some { gasUsed := 200 } ∧
    c2Env.gasLimit < (c2Env.gasUsed + 200) % U64 ∧
    processRecord c2Env c2wRec = c2Env :=
  ⟨rfl, by decide,
    c2_amended_batch_admission.1 c2Env c2wRec { gasUsed := 200 } rfl (by decide)⟩

/-- C9: a response body that fails to decode, or a result record that fails
to decode, is only logged — the round trip still returns success (nil
error), and a malformed record even degenerates to the zero record and is
silently skipped, leaving the environment unchanged. -/
theorem c9_decode_failure_swallowed :
    (tlsCallToServer none c9Env).2.2 = none ∧
    (tlsCallToServer (some [none]) c9Env).2.2 = none ∧
    (tlsCallToServer (some [none]) c9Env).2.1 = c9Env :=
  ⟨rfl, rfl, rfl⟩

/-- C1: on every round trip tlsCallToServer posts the transaction batch
without ever invoking verifyReport (no attestation verification guards the
send), even though verifyReport itself — dead code — does implement the
minimum security version, product identifier and signer identity checks:
it accepts a conforming report and rejects a wrong signer. -/
theorem c1_no_attestation_before_send :
    (∀ (parsed : Option (List (Option StateModification))) (env : CEnv),
        NetEvent.postTxData ∈ (tlsCallToServer parsed env).1 ∧
        NetEvent.verifyAttestation ∉ (tlsCallToServer parsed env).1) ∧
    verifyReport AttOutcome.ok c1Report [1, 2, 3] [7, 7] = none ∧
    verifyReport AttOutcome.ok c1BadSigner [1, 2, 3] [7, 7] = some AttError.invalidSigner := by
  refine ⟨fun parsed env => ⟨?_, ?_⟩, by decide, by decide⟩
  · show NetEvent.postTxData ∈ [NetEvent.fetchCert, NetEvent.postTxData]
    decide
  · show NetEvent.verifyAttestation ∉ [NetEvent.fetchCert, NetEvent.postTxData]
    decide

/-! Claim theorems for the worker side. -/

/-- C5: when a transaction application fails, applyTransaction restores the
state snapshot and the gas pool value captured immediately before the call,
discarding the partial effects the engine produced: the environment it
returns is exactly the input environment. -/
theorem c5_failed_apply_rolls_back (engine : Engine) (env : WEnv) (tx : WTx) (e : ExecErr)
    (h : (applyTransaction engine env tx).2 = Except.error e) :
    (applyTransaction engine env tx).1 = env := by
  cases hp : applyTransaction engine env tx with
  | mk env1 ex =>
      rw [hp] at h
      cases ex with
      | ok r => exact absurd h (by simp)
      | error e1 => exact applyTransaction_error_env engine env tx env1 e1 hp

/-- Witness of C5: an engine that fails and leaves junk partial state; the
wrapper reports the failure and returns the untouched environment. -/
theorem c5_failed_apply_rolls_back_witness :
    (applyTransaction c5Engine c5Env c5Tx).2 = Except.error ExecErr.other ∧
    (applyTransaction c5Engine c5Env c5Tx).1 = c5Env :=
  ⟨rfl, c5_failed_apply_rolls_back c5Engine c5Env c5Tx ExecErr.other rfl⟩

/-- C6: in an iteration whose candidate passes the budget, resolution and
replay guards, the execution outcome is dispatched as follows — on success
the transaction and a receipt are appended to the context and the selected
senders queue is shifted; on the stale-nonce failure the queue is shifted
with the environment unchanged (nothing appended); on any other failure the
senders whole queue is popped with the environment unchanged (the
transaction silently dropped); and in all three cases the iteration yields
a next state, so the loop continues. -/
theorem c6_execution_dispatch (engine : Engine) (eip155 : Bool) (st : LoopState)
    (which : Bool) (ltx : WTx)
    (h1 : ¬ st.env.gasPool < ltx.gas) (h2 : ¬ blobGasLeft st.env < ltx.blobGas)
    (h3 : ltx.evicted = false) (h4 : (ltx.isProtected && !eip155) = false) :
    (∀ envNew, commitTransaction engine st.env ltx = (envNew, none) →
        iterExec engine eip155 st which ltx =
          IterRes.next { shiftSel which st with env := envNew } true ∧
        ∃ r, envNew.txs = st.env.txs ++ [ltx] ∧
          envNew.receipts = st.env.receipts ++ [r] ∧
          envNew.tcount = st.env.tcount + 1) ∧
    (∀ envNew, commitTransaction engine st.env ltx = (envNew, some ExecErr.nonceTooLow) →
        envNew = st.env ∧
        iterExec engine eip155 st which ltx = IterRes.next (shiftSel which st) true) ∧
    (∀ envNew e, commitTransaction engine st.env ltx = (envNew, some e) →
        e ≠ ExecErr.nonceTooLow →
        envNew = st.env ∧
        iterExec engine eip155 st which ltx = IterRes.next (popSel which st) true) := by
  have hguards : ∀ res, commitTransaction engine st.env ltx = res →
      iterExec engine eip155 st which ltx =
        (match res with
          | (envNew, none) => IterRes.next { shiftSel which st with env := envNew } true
          | (envNew, some ExecErr.nonceTooLow) =>
              IterRes.next { shiftSel which st with env := envNew } true
          | (envNew, some _) => IterRes.next { popSel which st with env := envNew } true) := by
    intro res hres
    unfold iterExec
    rw [if_neg h1, if_neg h2, if_neg (by simp [h3]), if_neg (by simp [h4]), hres]
  refine ⟨?_, ?_, ?_⟩
  · intro envNew h
    refine ⟨hguards (envNew, none) h, ?_⟩
    exact commitTransaction_ok_appends engine st.env ltx envNew h
  · intro envNew h
    have he := commitTransaction_error_env engine st.env ltx envNew ExecErr.nonceTooLow h
    refine ⟨he, ?_⟩
    have hg : iterExec engine eip155 st which ltx =
        IterRes.next { shiftSel which st with env := envNew } true :=
      hguards (envNew, some ExecErr.nonceTooLow) h
    rw [hg, he, shiftSel_set_env]
  · intro envNew e h hne
    have he := commitTransaction_error_env engine st.env ltx envNew e h
    refine ⟨he, ?_⟩
    cases e with
    | nonceTooLow => exact absurd rfl hne
    | blobLimitReached =>
        have hg : iterExec engine eip155 st which ltx =
            IterRes.next { popSel which st with env := envNew } true :=
          hguards (envNew, some ExecErr.blobLimitReached) h
        rw [hg, he, popSel_set_env]
    | other =>
        have hg : iterExec engine eip155 st which ltx =
            IterRes.next { popSel which st with env := envNew } true :=
          hguards (envNew, some ExecErr.other) h
        rw [hg, he, popSel_set_env]

/-- Witness of C6 at a concrete state: a successful execution appends the
transaction and shifts the queue. -/
theorem c6_execution_dispatch_witness :
    iterExec okEngine true c6St true c5Tx =
      IterRes.next
        { shiftSel true c6St with env := (commitTransaction okEngine c6St.env c5Tx).1 }
        true ∧
    (commitTransaction okEngine c6St.env c5Tx).1.txs = c6St.env.txs ++ [c5Tx] := by
  have h := (c6_execution_dispatch okEngine true c6St true c5Tx (by decide) (by decide)
    rfl rfl).1 (commitTransaction okEngine c6St.env c5Tx).1 rfl
  refine ⟨h.1, ?_⟩
  obtain ⟨r, ht, -, -⟩ := h.2
  exact ht

set_option maxRecDepth 10000 in
/-- C7 counterexample: the unconditional claim fails on a reachable
client-mode run.  A remote batch record charging the full 100000 gas limit
is admitted by tlsCallToServer (processRecord accepts 100000 against limit
100000), pre-charging Header.GasUsed while env.GasPool is still nil;
fillTransactions then still calls commitTransactions on the same
environment, which initialises a fresh full-limit pool (worker.go
lines 321-323), so one more successfully committed 21000-gas local
transaction ends the run of the commit loop with accumulated gas-used
121000, strictly above the header gas limit 100000. -/
theorem c7_budget_violation_counterexample :
    (processRecord c7PreEnv c7PreRec).gasUsed = 100000 ∧
    c7BadEnv.gasUsed = 100000 ∧
    (commitTransactions okEngine true (fun _ => CommitInterrupt.none) none c7BadEnv
      c7BadPlain c7EmptyBlob 3).env.gasLimit = 100000 ∧
    (commitTransactions okEngine true (fun _ => CommitInterrupt.none) none c7BadEnv
      c7BadPlain c7EmptyBlob 3).env.gasUsed = 121000 ∧
    (commitTransactions okEngine true (fun _ => CommitInterrupt.none) none c7BadEnv
      c7BadPlain c7EmptyBlob 3).env.gasLimit <
      (commitTransactions okEngine true (fun _ => CommitInterrupt.none) none c7BadEnv
        c7BadPlain c7EmptyBlob 3).env.gasUsed := by
  refine ⟨by decide, by decide, by decide, by decide, by decide⟩

/-- C7 (amended): a run of the commit loop started with the gas-used plus
gas-pool sum within the header gas limit — as holds for a fresh attempt,
where the nil pool is initialised to the full limit with zero gas-used, but
not for a client-mode attempt whose environment the remote batch has
already pre-charged — and with the blob count within capacity keeps
accumulated gas-used at most the gas limit and accumulated blob count times
the per-blob gas at most the block maximum, given that the engine never
reports more gas than the transaction gas bound the loop checked; moreover
a candidate whose gas or blob-gas requirement exceeds the remaining budget
is popped without execution, and a blob transaction overflowing blob
capacity is rejected with the environment unchanged, independently of the
engine (so before any application). -/
theorem c7_budget_respected :
    (∀ (engine : Engine) (eip155 : Bool) (signals : Nat → CommitInterrupt)
        (fuel i : Nat) (st : LoopState),
        (∀ env tx r s, engine env tx = EngineOut.ok r s → r.gasUsed ≤ tx.gas) →
        st.env.gasUsed + st.env.gasPool ≤ st.env.gasLimit →
        st.env.blobs * BlobTxBlobGasPerBlob ≤ MaxBlobGasPerBlock →
        (commitLoop engine eip155 signals fuel i st).env.gasUsed ≤ st.env.gasLimit ∧
        (commitLoop engine eip155 signals fuel i st).env.blobs * BlobTxBlobGasPerBlob ≤
          MaxBlobGasPerBlock) ∧
    (∀ (engine : Engine) (env : WEnv) (tx : WTx),
        (env.blobs + tx.blobCount) * BlobTxBlobGasPerBlob > MaxBlobGasPerBlock →
        commitBlobTransaction engine env tx = (env, some ExecErr.blobLimitReached)) ∧
    (∀ (engine : Engine) (eip155 : Bool) (st : LoopState) (which : Bool) (ltx : WTx),
        st.env.gasPool < ltx.gas →
        iterExec engine eip155 st which ltx = IterRes.next (popSel which st) false) ∧
    (∀ (engine : Engine) (eip155 : Bool) (st : LoopState) (which : Bool) (ltx : WTx),
        ¬ st.env.gasPool < ltx.gas → blobGasLeft st.env < ltx.blobGas →
        iterExec engine eip155 st which ltx = IterRes.next (popSel which st) false) := by
  refine ⟨?_, ?_, ?_, ?_⟩
  · intro engine eip155 signals fuel i st hEng hsum hblob
    have hmain := commitLoop_budget engine hEng eip155 signals st.env.gasLimit fuel i st
      hsum hblob
    exact ⟨le_trans (Nat.le_add_right _ _) hmain.1, hmain.2⟩
  · intro engine env tx hcap
    unfold commitBlobTransaction
    rw [if_pos hcap]
  · intro engine eip155 st which ltx hlt
    unfold iterExec
    rw [if_pos hlt]
  · intro engine eip155 st which ltx hge hb
    unfold iterExec
    rw [if_neg hge, if_pos hb]

/-- Witness of C7 (amended): a concrete run started within budget, with a
gas-exact engine, stays within both budgets. -/
theorem c7_budget_respected_witness :
    (commitLoop okEngine true (fun _ => CommitInterrupt.none) 3 0 c7St).env.gasUsed ≤
      c7St.env.gasLimit ∧
    (commitLoop okEngine true (fun _ => CommitInterrupt.none) 3 0 c7St).env.blobs *
      BlobTxBlobGasPerBlob ≤ MaxBlobGasPerBlock :=
  c7_budget_respected.1 okEngine true (fun _ => CommitInterrupt.none) 3 0 c7St
    (fun env tx r s h => by cases h; exact Nat.le_refl _) (by decide) (by decide)

/-- C8: a transaction application only ever happens in an iteration whose
interrupt check read the none signal — so once the signal is set, at most
the one application already past its check can still happen before the loop
stops; the loop returns exactly the error obtained from the stopping signal
through signalToErr, whose three values are pairwise distinct errors; and
under a signal monotone from index k on, every application lies strictly
before k. -/
theorem c8_cancellation_prompt :
    (∀ (engine : Engine) (eip155 : Bool) (signals : Nat → CommitInterrupt)
        (fuel i : Nat) (st : LoopState) (j : Nat),
        j ∈ (commitLoop engine eip155 signals fuel i st).log →
        signals j = CommitInterrupt.none) ∧
    (∀ (engine : Engine) (eip155 : Bool) (signals : Nat → CommitInterrupt)
        (fuel i : Nat) (st : LoopState),
        (commitLoop engine eip155 signals fuel i st).err =
          signalToErr (commitLoop engine eip155 signals fuel i st).stopSig) ∧
    (signalToErr CommitInterrupt.newHead = some BuildErr.blockInterruptedByNewHead ∧
      signalToErr CommitInterrupt.resubmit = some BuildErr.blockInterruptedByRecommit ∧
      signalToErr CommitInterrupt.timeout = some BuildErr.blockInterruptedByTimeout ∧
      BuildErr.blockInterruptedByNewHead ≠ BuildErr.blockInterruptedByRecommit ∧
      BuildErr.blockInterruptedByNewHead ≠ BuildErr.blockInterruptedByTimeout ∧
      BuildErr.blockInterruptedByRecommit ≠ BuildErr.blockInterruptedByTimeout) ∧
    (∀ (engine : Engine) (eip155 : Bool) (signals : Nat → CommitInterrupt)
        (fuel i : Nat) (st : LoopState) (k : Nat),
        (∀ j, k ≤ j → signals j ≠ CommitInterrupt.none) →
        ∀ j ∈ (commitLoop engine eip155 signals fuel i st).log, j < k) := by
  refine ⟨?_, ?_, by decide, ?_⟩
  · intro engine eip155 signals fuel i st j hj
    exact commitLoop_log_signals engine eip155 signals fuel i st j hj
  · intro engine eip155 signals fuel i st
    exact commitLoop_err_stopSig engine eip155 signals fuel i st
  · intro engine eip155 signals fuel i st k hk j hj
    by_contra hlt
    exact hk j (Nat.le_of_not_lt hlt)
      (commitLoop_log_signals engine eip155 signals fuel i st j hj)

set_option maxRecDepth 10000 in
/-- Witness of C8: with the timeout signal raised from iteration 1 on, the
run executes only at iteration 0, stops and returns the timeout error, and
every logged application lies before index 1. -/
theorem c8_cancellation_prompt_witness :
    (commitLoop okEngine true c8Signals 4 0 c8St).log = [0] ∧
    (commitLoop okEngine true c8Signals 4 0 c8St).err =
      some BuildErr.blockInterruptedByTimeout ∧
    (∀ j ∈ (commitLoop okEngine true c8Signals 4 0 c8St).log, j < 1) := by
  refine ⟨by decide, by decide, ?_⟩
  exact c8_cancellation_prompt.2.2.2 okEngine true c8Signals 4 0 c8St 1
    (fun j hj => by
      have hne : j ≠ 0 := Nat.one_le_iff_ne_zero.mp hj
      simp [c8Signals, hne])

end Miner
